import Mathlib

/-!
Verification of the checkout/payment orchestration pipeline of the
crossmint-checkout-telegram-agent repository, as a shallow embedding in Lean.

Strings from the TypeScript source are modelled as `List Char`; JavaScript
string primitives (`trim`, `split`, `toUpperCase`, `toLowerCase`,
`includes`) are embedded as executable functions on `List Char`.
In-memory maps (the search cache, the session store) are modelled as
functions `Nat → Option _` updated pointwise; `Date.now()` timestamps are
explicit `Nat` parameters.
-/

namespace Crossmint

/-! ## JavaScript string primitives -/

/-- JS `String.prototype.trim`: drop whitespace from both ends. -/
def jsTrim (l : List Char) : List Char :=
  ((l.dropWhile Char.isWhitespace).reverse.dropWhile Char.isWhitespace).reverse

/-- JS `String.prototype.split(sep)` for a one-character separator. -/
def splitOnChar (sep : Char) : List Char → List (List Char)
  | [] => [[]]
  | c :: t =>
    let r := splitOnChar sep t
    if c = sep then [] :: r
    else
      match r with
      | h :: t' => (c :: h) :: t'
      | [] => [[c]]

/-- JS `String.prototype.toUpperCase` (ASCII fragment used by the source). -/
def jsToUpper (l : List Char) : List Char := l.map Char.toUpper

/-- JS `String.prototype.toLowerCase` (ASCII fragment used by the source). -/
def jsToLower (l : List Char) : List Char := l.map Char.toLower

/-- JS `String.prototype.includes`: substring containment. -/
def jsIncludes (hay needle : List Char) : Bool :=
  match hay with
  | [] => needle.isEmpty
  | _ :: t => needle.isPrefixOf hay || jsIncludes t needle

/-! ## ProductCache (src: searchHandler, `searchCache` / `getCachedSearchResults`
/ `getCachedProduct`) -/

/-- A cached Amazon search result, as stored by `cacheSearchResults`. -/
structure Product where
  title : List Char
  price : List Char
  link : List Char
deriving DecidableEq, Repr

/-- One per-user entry of the in-memory `searchCache`. -/
structure CacheEntry where
  products : List Product
  timestamp : Nat
  query : List Char
deriving DecidableEq, Repr

/-- The in-memory `searchCache`, keyed by Telegram user id. -/
def SearchCache := Nat → Option CacheEntry

/-- `CACHE_DURATION = 2 * 60 * 60 * 1000` (2 hours, in milliseconds). -/
def CACHE_DURATION : Nat := 2 * 60 * 60 * 1000

/-- `getCachedSearchResults(userId)`: returns the entry unless it is absent or
expired; an expired entry is deleted from the cache as part of the read.
The result pairs the returned value with the cache after the read. -/
def getCachedSearchResults (now : Nat) (cache : SearchCache) (userId : Nat) :
    Option (List Product × List Char) × SearchCache :=
  match cache userId with
  | none => (none, cache)
  | some e =>
    if (now : Int) - (e.timestamp : Int) > (CACHE_DURATION : Int) then
      (none, fun v => if v = userId then none else cache v)
    else
      (some (e.products, e.query), cache)

/-- `getCachedProduct(userId, index)`: resolves a numeric index (from untrusted
callback data, hence `Int`) into a product of the user's cached entry. -/
def getCachedProduct (now : Nat) (cache : SearchCache) (userId : Nat) (index : Int) :
    Option Product × SearchCache :=
  match getCachedSearchResults now cache userId with
  | (none, c') => (none, c')
  | (some (ps, _), c') =>
    if index < 0 ∨ index ≥ (ps.length : Int) then (none, c')
    else (ps.get? index.toNat, c')

/-! ## OrderGateway (src: checkout service, `getProductLocatorVariations` /
`createOrderWithRetry` / `createWalletAmazonOrder`) -/

/-- The provider's order object, restricted to the fields the orchestration
reads: `payment.status`, `quote.status`, `payment.preparation.chain` and
`payment.preparation.serializedTransaction`. -/
structure OrderPreparation where
  chain : Option (List Char)
  payerAddress : Option (List Char)
  serializedTransaction : Option (List Char)
deriving DecidableEq, Repr

structure OrderPayment where
  status : List Char
  method : List Char
  currency : List Char
  preparation : Option OrderPreparation
deriving DecidableEq, Repr

structure OrderQuote where
  status : List Char
  totalPriceAmount : List Char
  totalPriceCurrency : List Char
deriving DecidableEq, Repr

structure Order where
  orderId : List Char
  phase : List Char
  quote : OrderQuote
  payment : OrderPayment
deriving DecidableEq, Repr

/-- `order.payment.preparation?.serializedTransaction` -/
def Order.serializedTx (o : Order) : Option (List Char) :=
  o.payment.preparation.bind (·.serializedTransaction)

/-- `getProductLocatorVariations(asin, amazonUrl)`: the ordered list of
product-locator encodings tried by the retry loop. -/
def getProductLocatorVariations (asin amazonUrl : List Char) : List (List Char) :=
  [ "amazon:".data ++ asin,
    "amazon:https://www.amazon.com/dp/".data ++ asin,
    "amazon:".data ++ amazonUrl,
    asin,
    "https://www.amazon.com/dp/".data ++ asin ]

/-- What one provider attempt (`axios.post` + `OrderResponseSchema.parse`)
can produce for a given locator variant: a parsed order, an HTTP-layer
error caught by `axios.isAxiosError` (with the optional response status and
message), or a response that arrived but failed schema validation
(`ZodError` thrown by `parse`, which is not an axios error). -/
inductive AttemptResult where
  | success (o : Order)
  | httpError (status : Option Nat) (message : Option (List Char))
  | parseFailure
deriving DecidableEq, Repr

/-- The error value held in `lastError` / thrown out of the loop. -/
inductive AttemptError where
  | httpError (status : Option Nat) (message : Option (List Char))
  | parseFailure
deriving DecidableEq, Repr

/-- `status !== 400 || !message?.includes('Product not found')` negated:
the condition under which the loop moves on to the next locator variant
after an axios error. -/
def retryableNotFound (status : Option Nat) (message : Option (List Char)) : Bool :=
  status = some 400 &&
    (match message with
     | none => false
     | some m => jsIncludes m "Product not found".data)

/-- Outcome of `createOrderWithRetry`, together with the number of provider
calls the loop issued. -/
inductive RetryResult where
  | ok (o : Order) (calls : Nat)
  | aborted (e : AttemptError) (calls : Nat)
  | exhausted (lastError : Option AttemptError) (calls : Nat)
deriving DecidableEq, Repr

/-- Number of provider calls recorded in a `RetryResult`. -/
def RetryResult.calls : RetryResult → Nat
  | .ok _ n => n
  | .aborted _ n => n
  | .exhausted _ n => n

/-- `createOrderWithRetry`: one provider call per locator variant, in order.
`results` holds, per variant, what the provider stack would answer for it;
`last` is the running `lastError`; `n` counts the calls already made.
A successful, schema-valid response returns immediately; an axios error
continues only under `retryableNotFound` and otherwise rethrows; a
non-axios error (schema-validation failure) records `lastError` and
continues; after the loop, `lastError` is thrown. -/
def createOrderWithRetry : List AttemptResult → Option AttemptError → Nat → RetryResult
  | [], last, n => .exhausted last n
  | r :: rest, _last, n =>
    match r with
    | .success o => .ok o (n + 1)
    | .parseFailure => createOrderWithRetry rest (some .parseFailure) (n + 1)
    | .httpError st msg =>
      if retryableNotFound st msg then
        createOrderWithRetry rest (some (.httpError st msg)) (n + 1)
      else
        .aborted (.httpError st msg) (n + 1)

/-- An attempt result after which the loop moves on to the next variant. -/
def AttemptResult.retryable : AttemptResult → Bool
  | .success _ => false
  | .parseFailure => true
  | .httpError st msg => retryableNotFound st msg

/-- The `lastError` value recorded for a failed attempt. -/
def AttemptResult.toError : AttemptResult → Option AttemptError
  | .success _ => none
  | .parseFailure => some .parseFailure
  | .httpError st msg => some (.httpError st msg)

/-! ### Response classification in `createWalletAmazonOrder` -/

/-- The error conditions checked on a parsed order, in source order. -/
inductive CreateOrderError where
  | insufficientFunds
  | addressRequired
  | noSerializedTransaction
deriving DecidableEq, Repr

/-- The message of the `Error` thrown for each condition. -/
def CreateOrderError.message : CreateOrderError → List Char
  | .insufficientFunds => "Insufficient USDC funds in wallet".data
  | .addressRequired => "Physical address is required for this product".data
  | .noSerializedTransaction =>
      "No serialized transaction found for order. This item may not be available for purchase.".data

/-- The classification performed on the successful `createOrderWithRetry`
response: insufficient funds and missing physical address are checked first;
then the serialized transaction is extracted and its absence — a missing
field or, by JS truthiness, an empty string — is an error; otherwise the
order is returned with `requiresTransaction: true`. -/
def classifyOrderResponse (o : Order) : Except CreateOrderError (Order × List Char) :=
  if o.payment.status = "crypto-payer-insufficient-funds".data then
    .error .insufficientFunds
  else if o.quote.status = "requires-physical-address".data then
    .error .addressRequired
  else
    match o.serializedTx with
    | none => .error .noSerializedTransaction
    | some tx =>
      if tx.isEmpty then .error .noSerializedTransaction else .ok (o, tx)

/-- The outer `catch` of `createWalletAmazonOrder` for an error that is
neither an axios error nor a `ZodError`: it rethrows
`` new Error(`Unexpected error during order creation: ${error}`) ``, where a
JS `Error` interpolates as `Error: <message>`. -/
def wrapUnexpected (msg : List Char) : List Char :=
  "Unexpected error during order creation: Error: ".data ++ msg

/-- `createWalletAmazonOrder` after a successful provider response: either
the order paired with its serialized transaction, or the message of the
(rewrapped) error it throws. -/
def createWalletAmazonOrderResult (o : Order) : Except (List Char) (Order × List Char) :=
  match classifyOrderResponse o with
  | .ok s => .ok s
  | .error e => .error (wrapUnexpected e.message)

/-! ### `createHeadlessOrder` outcome (src: checkoutHandler) -/

/-- The user-facing action `createHeadlessOrder` takes once the order call
resolved. `manualApproval` is the action the spec describes for a
non-delegated wallet; it is part of the action vocabulary so that the
specified behaviour can be compared with the implemented one. -/
inductive BotAction where
  | offerTopUp
  | shippingRestriction
  | submitTransaction (tx chain : List Char)
  | announceAutoCompleted
  | manualApproval (requiredSignerLocator : List Char)
  | failGeneric (msg : List Char)
deriving DecidableEq, Repr

/-- `order?.payment?.preparation?.chain || 'base-sepolia'` (JS `||` also
replaces an empty string). -/
def Order.paymentChain (o : Order) : List Char :=
  match o.payment.preparation.bind (·.chain) with
  | none => "base-sepolia".data
  | some c => if c.isEmpty then "base-sepolia".data else c

/-- `createHeadlessOrder`, reduced to the action it selects for a provider
order response `o`: the result of `createWalletAmazonOrder` is inspected;
a thrown error is dispatched on its message text (top-up recovery for
insufficient funds, shipping restriction for non-US addresses, generic
failure otherwise); a returned order re-checks payment status and quote
status, then submits the serialized transaction directly via
`signOrderTransaction` when present, and announces auto-completion when
absent. -/
def createHeadlessOrder (o : Order) : BotAction :=
  match createWalletAmazonOrderResult o with
  | .error msg =>
    if jsIncludes msg "Insufficient USDC funds".data then .offerTopUp
    else if jsIncludes msg "US shipping addresses".data then .shippingRestriction
    else .failGeneric msg
  | .ok (ord, _) =>
    if ord.payment.status = "crypto-payer-insufficient-funds".data then .offerTopUp
    else if ord.quote.status = "requires-physical-address".data then
      .failGeneric "Physical address validation failed. Please check your shipping address.".data
    else
      match ord.serializedTx with
      | some tx =>
        if tx.isEmpty then .announceAutoCompleted
        else .submitTransaction tx ord.paymentChain
      | none => .announceAutoCompleted

/-! ### SigningCoordinator as the spec words it -/

/-- Decision of the spec's `completeSignature`. -/
inductive SpecSignDecision where
  | directSubmission (tx chain : List Char)
  | manualApprovalDescriptor (requiredSignerLocator : List Char)
deriving DecidableEq, Repr

/-- Modelled from the spec: `completeSignature` of the SigningCoordinator
(no function in the source implements this contract). It first asks the
DelegationChecker; if delegated it submits the serialized transaction
directly to the wallet provider's transaction-submission endpoint, and if
not delegated it returns a manual-approval descriptor for the caller,
without attempting submission. -/
def specCompleteSignature (isDelegated : Bool) (payerWallet tx chain : List Char) :
    SpecSignDecision :=
  if isDelegated then .directSubmission tx chain
  else .manualApprovalDescriptor payerWallet

/-- View of a `BotAction` as a signing decision, for comparing the
implementation with the spec's coordinator. -/
def BotAction.asSignDecision : BotAction → Option SpecSignDecision
  | .submitTransaction tx chain => some (.directSubmission tx chain)
  | .manualApproval l => some (.manualApprovalDescriptor l)
  | _ => none

/-! ## DelegationChecker (src: delegation service, `isDelegatedToBotSigner`) -/

/-- The slice of a `WalletUser` record the delegation check reads. -/
structure WalletUser where
  walletAddress : Option (List Char)
deriving DecidableEq, Repr

/-- What the `fetch` of `GET /wallets/{address}/signers` can produce:
a parsed list of signer locators, a non-ok HTTP response, or a thrown
network/parse error. -/
inductive SignersFetch where
  | ok (signers : List (List Char))
  | httpError
  | threw
deriving DecidableEq, Repr

/-- `BOT_SIGNER_ADDRESS`, the service's signer address. -/
def BOT_SIGNER_ADDRESS : List Char :=
  "0x9AF659Ef26583C0793c35C52E076FBeA6486E31d".data

/-- `isDelegatedToBotSigner(userId)`: `false` when the user record or its
wallet address is missing (or empty), when the API key is not configured,
when the provider call fails or throws; otherwise case-insensitive
membership of the bot signer in the returned signer list. -/
def isDelegatedToBotSigner (user : Option WalletUser) (serverApiKey : List Char)
    (fetch : SignersFetch) : Bool :=
  match user with
  | none => false
  | some u =>
    match u.walletAddress with
    | none => false
    | some addr =>
      if addr.isEmpty then false
      else if serverApiKey.isEmpty then false
      else
        match fetch with
        | .httpError => false
        | .threw => false
        | .ok signers =>
          signers.any (fun s => jsToLower s = jsToLower BOT_SIGNER_ADDRESS)

/-! ## CheckoutSession state machine (src: checkoutHandler,
`handleCheckoutMessage` / `handleEmailInput` / `handleAddressInput`) -/

/-- The `step` field of a `UserSession`. -/
inductive Step where
  | productSelected
  | collectingEmail
  | collectingAddress
  | creatingOrder
  | completed
deriving DecidableEq, Repr

/-- The product snapshot copied into a session (fields not read by the
state machine are omitted). -/
structure AmazonProduct where
  title : List Char
  price : List Char
  amazonUrl : List Char
deriving DecidableEq, Repr

/-- A parsed `PhysicalAddress` as stored by `handleAddressInput`. -/
structure PhysicalAddress where
  name : List Char
  line1 : List Char
  city : List Char
  state : List Char
  postalCode : List Char
  country : List Char
deriving DecidableEq, Repr

/-- A `UserSession` of the checkout flow. -/
structure UserSession where
  userId : Nat
  selectedProduct : Option AmazonProduct
  email : Option (List Char)
  physicalAddress : Option PhysicalAddress
  step : Step
  productIndex : Option Nat
deriving DecidableEq, Repr

/-- The email validation regex `^[^\s@]+@[^\s@]+\.[^\s@]+$`: a nonempty
run without whitespace or `@`, one `@`, then a tail without whitespace or
`@` that contains a `.` at neither end. -/
def emailRegexAccepts (l : List Char) : Bool :=
  let a := l.takeWhile (fun c => c ≠ '@')
  match l.dropWhile (fun c => c ≠ '@') with
  | [] => false
  | _ :: tail =>
    !a.isEmpty && a.all (fun c => !c.isWhitespace) &&
    !tail.contains '@' && tail.all (fun c => !c.isWhitespace) &&
    (tail.drop 1).dropLast.contains '.'

/-- `handleEmailInput`: an input failing the regex re-prompts and leaves the
session untouched; a valid one stores the email and advances to
`collecting_address`. -/
def handleEmailInput (email : List Char) (s : UserSession) : UserSession :=
  if emailRegexAccepts email then
    { s with email := some email, step := .collectingAddress }
  else s

/-- The field check of `handleAddressInput` on the pipe-split parts:
at least six parts, the first six truthy (non-empty), and the country
normalizing to `US`. -/
def addressPartsAccepted (parts : List (List Char)) : Bool :=
  decide (6 ≤ parts.length) &&
  !(parts.getD 0 []).isEmpty && !(parts.getD 1 []).isEmpty &&
  !(parts.getD 2 []).isEmpty && !(parts.getD 3 []).isEmpty &&
  !(parts.getD 4 []).isEmpty && !(parts.getD 5 []).isEmpty &&
  jsToUpper (parts.getD 5 []) = "US".data

/-- `handleAddressInput`: splits on `|`, trims each part, rejects fewer than
six fields, any empty field, or a country other than `US`; otherwise stores
the address and advances to `creating_order`. -/
def handleAddressInput (addressText : List Char) (s : UserSession) : UserSession :=
  let parts := (splitOnChar '|' addressText).map jsTrim
  if addressPartsAccepted parts then
    { s with
      physicalAddress := some
        { name := parts.getD 0 [], line1 := parts.getD 1 [],
          city := parts.getD 2 [], state := parts.getD 3 [],
          postalCode := parts.getD 4 [], country := jsToUpper (parts.getD 5 []) },
      step := .creatingOrder }
  else s

/-- `handleCheckoutMessage`: trims the text; an empty text, a missing
product, or a step other than the two collecting steps is not consumed
(`false`) and changes nothing; otherwise the step's input handler runs and
the message is consumed (`true`). -/
def handleCheckoutMessage (text : List Char) (s : UserSession) : UserSession × Bool :=
  let t := jsTrim text
  if t.isEmpty then (s, false)
  else
    match s.selectedProduct with
    | none => (s, false)
    | some _ =>
      match s.step with
      | .collectingEmail => (handleEmailInput t s, true)
      | .collectingAddress => (handleAddressInput t s, true)
      | _ => (s, false)

/-- Folding a sequence of user text inputs through the checkout message
handler. -/
def runInputs (inputs : List (List Char)) (s : UserSession) : UserSession :=
  inputs.foldl (fun acc t => (handleCheckoutMessage t acc).1) s

/-! ## Sample data used by witnesses and counterexamples -/

/-- A cached search entry with two products, stored at time 0. -/
def sampleEntry : CacheEntry :=
  { products :=
      [ { title := "Wireless Headphones".data, price := "59.99".data,
          link := "https://www.amazon.com/dp/B000X0TEST".data },
        { title := "USB Cable".data, price := "7.99".data,
          link := "https://www.amazon.com/dp/B000X0CBLE".data } ],
    timestamp := 0,
    query := "headphones".data }

/-- A cache holding `sampleEntry` for user 42 only. -/
def sampleCache : SearchCache :=
  fun v => if v = 42 then some sampleEntry else none

/-- An order response carrying a serialized transaction. -/
def signOrderSample : Order :=
  { orderId := "order-1".data, phase := "payment".data,
    quote := { status := "valid".data, totalPriceAmount := "64.41".data,
               totalPriceCurrency := "usdc".data },
    payment := { status := "awaiting-payment".data, method := "base-sepolia".data,
                 currency := "usdc".data,
                 preparation := some { chain := some "base-sepolia".data,
                                       payerAddress := some "0xWALLET".data,
                                       serializedTransaction := some "0xTX".data } } }

/-- An order response with no serialized transaction and benign statuses. -/
def autoOrderSample : Order :=
  { orderId := "order-2".data, phase := "completed".data,
    quote := { status := "valid".data, totalPriceAmount := "9.99".data,
               totalPriceCurrency := "usdc".data },
    payment := { status := "completed".data, method := "base-sepolia".data,
                 currency := "usdc".data, preparation := none } }

/-- An insufficient-funds order response that nevertheless carries a
serialized transaction and an address-requiring quote status. -/
def insufficientOrderSample : Order :=
  { orderId := "order-3".data, phase := "quote".data,
    quote := { status := "requires-physical-address".data,
               totalPriceAmount := "64.41".data,
               totalPriceCurrency := "usdc".data },
    payment := { status := "crypto-payer-insufficient-funds".data,
                 method := "base-sepolia".data, currency := "usdc".data,
                 preparation := some { chain := some "base-sepolia".data,
                                       payerAddress := some "0xWALLET".data,
                                       serializedTransaction := some "0xTX".data } } }

/-- A checkout session for user 7 that just entered email collection. -/
def sampleSession : UserSession :=
  { userId := 7,
    selectedProduct := some { title := "Wireless Headphones".data,
                              price := "59.99".data,
                              amazonUrl := "https://www.amazon.com/dp/B000X0TEST".data },
    email := none, physicalAddress := none,
    step := .collectingEmail, productIndex := some 0 }

/-! ## C7 — `getCachedProduct` bounds behaviour -/

/-- C7: for every user and integer index, `getCachedProduct` returns
`none` (raising nothing) when no entry exists for the user, when the entry
is expired, or when the index is outside `[0, len-1]`; for an in-bounds
index on a live entry it returns the product at that position. -/
theorem getByIndex_spec :
    (∀ (now : Nat) (cache : SearchCache) (u : Nat) (i : Int),
      cache u = none → getCachedProduct now cache u i = (none, cache)) ∧
    (∀ (now : Nat) (cache : SearchCache) (u : Nat) (i : Int) (e : CacheEntry),
      cache u = some e → (now : Int) - (e.timestamp : Int) > (CACHE_DURATION : Int) →
      (getCachedProduct now cache u i).1 = none) ∧
    (∀ (now : Nat) (cache : SearchCache) (u : Nat) (i : Int) (e : CacheEntry),
      cache u = some e → ¬((now : Int) - (e.timestamp : Int) > (CACHE_DURATION : Int)) →
      (i < 0 ∨ (e.products.length : Int) ≤ i) →
      getCachedProduct now cache u i = (none, cache)) ∧
    (∀ (now : Nat) (cache : SearchCache) (u : Nat) (i : Int) (e : CacheEntry),
      cache u = some e → ¬((now : Int) - (e.timestamp : Int) > (CACHE_DURATION : Int)) →
      0 ≤ i → i < (e.products.length : Int) →
      getCachedProduct now cache u i = (e.products.get? i.toNat, cache) ∧
      (e.products.get? i.toNat).isSome = true) := by
  refine ⟨?_, ?_, ?_, ?_⟩
  · intro now cache u i h
    simp [getCachedProduct, getCachedSearchResults, h]
  · intro now cache u i e h hexp
    simp [getCachedProduct, getCachedSearchResults, h, hexp]
  · intro now cache u i e h hexp hout
    have hcond : (i < 0 ∨ i ≥ (e.products.length : Int)) := by
      rcases hout with h1 | h1
      · exact Or.inl h1
      · exact Or.inr h1
    simp [getCachedProduct, getCachedSearchResults, h, if_neg hexp, hcond]
  · intro now cache u i e h hexp h0 hlt
    have hcond : ¬(i < 0 ∨ i ≥ (e.products.length : Int)) := by omega
    have hn : i.toNat < e.products.length := by omega
    constructor
    · simp [getCachedProduct, getCachedSearchResults, h, if_neg hexp, if_neg hcond]
    · rw [List.get?_eq_get hn]
      rfl

/-- C7 witness: user 42 has two cached products; index 1 resolves, index 9
and index -1 are out of bounds, user 5 has no entry. -/
theorem getByIndex_witness :
    (getCachedProduct 1000 sampleCache 5 0 = (none, sampleCache)) ∧
    ((getCachedProduct 1000 sampleCache 42 1).1 = sampleEntry.products.get? 1) ∧
    (getCachedProduct 1000 sampleCache 42 9 = (none, sampleCache)) ∧
    (getCachedProduct 1000 sampleCache 42 (-1) = (none, sampleCache)) := by
  refine ⟨?_, ?_, ?_, ?_⟩
  · exact getByIndex_spec.1 1000 sampleCache 5 0 rfl
  · have h4 := (getByIndex_spec.2.2.2 1000 sampleCache 42 1 sampleEntry rfl
      (by decide) (by decide) (by decide)).1
    rw [h4]
    rfl
  · exact getByIndex_spec.2.2.1 1000 sampleCache 42 9 sampleEntry rfl
      (by decide) (by decide)
  · exact getByIndex_spec.2.2.1 1000 sampleCache 42 (-1) sampleEntry rfl
      (by decide) (by decide)

/-! ## C8 — cache expiry on read -/

/-- C8: the TTL is 2 hours (7 200 000 ms), and once strictly more than the
TTL has elapsed since the entry was stored, `getCachedSearchResults`
returns `none` and deletes the expired entry from the cache as part of the
read. -/
theorem cache_expiry_spec :
    CACHE_DURATION = 7200000 ∧
    ∀ (now : Nat) (cache : SearchCache) (u : Nat) (e : CacheEntry),
      cache u = some e →
      (now : Int) - (e.timestamp : Int) > (CACHE_DURATION : Int) →
      (getCachedSearchResults now cache u).1 = none ∧
      ((getCachedSearchResults now cache u).2) u = none := by
  refine ⟨rfl, ?_⟩
  intro now cache u e h hexp
  simp [getCachedSearchResults, h, hexp]

/-- C8 witness: at `now = 7 200 001` the entry of user 42 stored at time 0
is expired: the read returns nothing and removes the entry. -/
theorem cache_expiry_witness :
    (getCachedSearchResults 7200001 sampleCache 42).1 = none ∧
    ((getCachedSearchResults 7200001 sampleCache 42).2) 42 = none := by
  exact cache_expiry_spec.2 7200001 sampleCache 42 sampleEntry rfl (by decide)

/-! ## C9 — delegation check -/

/-- C9: `isDelegatedToBotSigner` returns `true` exactly when the user has a
(non-empty) wallet address, the API key is configured, the provider call
returned a signer list, and that list contains the bot signer address under
case-insensitive comparison; every failure path yields `false` rather than
an error. -/
theorem isDelegated_spec :
    ∀ (user : Option WalletUser) (key : List Char) (fetch : SignersFetch),
      isDelegatedToBotSigner user key fetch = true ↔
        ∃ u addr signers,
          user = some u ∧ u.walletAddress = some addr ∧ addr ≠ [] ∧ key ≠ [] ∧
          fetch = .ok signers ∧
          ∃ s ∈ signers, jsToLower s = jsToLower BOT_SIGNER_ADDRESS := by
  intro user key fetch
  constructor
  · intro h
    match user with
    | none => simp [isDelegatedToBotSigner] at h
    | some u =>
      match hw : u.walletAddress with
      | none => simp [isDelegatedToBotSigner, hw] at h
      | some addr =>
        by_cases ha : addr.isEmpty = true
        · simp [isDelegatedToBotSigner, hw, ha] at h
        · by_cases hk : key.isEmpty = true
          · simp [isDelegatedToBotSigner, hw, ha, hk] at h
          · match fetch with
            | .httpError =>
              simp [isDelegatedToBotSigner, hw, ha, hk] at h
            | .threw =>
              simp [isDelegatedToBotSigner, hw, ha, hk] at h
            | .ok signers =>
              simp only [isDelegatedToBotSigner, hw, if_neg ha, if_neg hk,
                List.any_eq_true, decide_eq_true_eq] at h
              obtain ⟨s, hs, heq⟩ := h
              refine ⟨u, addr, signers, rfl, hw, ?_, ?_, rfl, s, hs, heq⟩
              · intro hnil
                rw [hnil] at ha
                exact ha rfl
              · intro hnil
                rw [hnil] at hk
                exact hk rfl
  · rintro ⟨u, addr, signers, rfl, hw, haddr, hkey, rfl, s, hs, heq⟩
    have ha : ¬(addr.isEmpty = true) := by
      cases addr with
      | nil => exact absurd rfl haddr
      | cons c t => simp
    have hk : ¬(key.isEmpty = true) := by
      cases key with
      | nil => exact absurd rfl hkey
      | cons c t => simp
    simp only [isDelegatedToBotSigner, hw, if_neg ha, if_neg hk, List.any_eq_true,
      decide_eq_true_eq]
    exact ⟨s, hs, heq⟩

/-- C9 witness: a user whose wallet lists the bot signer in a different
letter case is delegated; flipping any precondition yields `false`. -/
theorem isDelegated_witness :
    isDelegatedToBotSigner (some { walletAddress := some "0xABC".data })
      "sk_staging_key".data
      (.ok ["0x9af659ef26583c0793c35c52e076fbea6486e31d".data]) = true ∧
    isDelegatedToBotSigner none "sk_staging_key".data
      (.ok ["0x9af659ef26583c0793c35c52e076fbea6486e31d".data]) = false ∧
    isDelegatedToBotSigner (some { walletAddress := some "0xABC".data })
      "sk_staging_key".data .httpError = false := by
  refine ⟨?_, by decide, by decide⟩
  exact (isDelegated_spec _ _ _).mpr
    ⟨{ walletAddress := some "0xABC".data }, "0xABC".data,
     ["0x9af659ef26583c0793c35c52e076fbea6486e31d".data], rfl, rfl, by decide, by decide,
     rfl, "0x9af659ef26583c0793c35c52e076fbea6486e31d".data, by decide, by decide⟩

/-! ## C4 — provider-call bound of the locator-variant loop -/

/-- C4: the locator-variant list built for an ASIN has exactly 5 entries,
`createOrderWithRetry` issues at most one provider call per variant, and
the loop returns at the first accepted variant — the variants after it are
never tried. -/
theorem orderGateway_call_bound :
    (∀ asin url : List Char, (getProductLocatorVariations asin url).length = 5) ∧
    (∀ (results : List AttemptResult) (last : Option AttemptError) (n : Nat),
      (createOrderWithRetry results last n).calls ≤ n + results.length) ∧
    (∀ (pre : List AttemptResult) (o : Order) (rest : List AttemptResult)
        (last : Option AttemptError) (n : Nat),
      (∀ r ∈ pre, r.retryable = true) →
      createOrderWithRetry (pre ++ .success o :: rest) last n = .ok o (n + pre.length + 1)) := by
  refine ⟨fun asin url => rfl, ?_, ?_⟩
  · intro results
    induction results with
    | nil => intro last n; simp [createOrderWithRetry, RetryResult.calls]
    | cons r rest ih =>
      intro last n
      match r with
      | .success o =>
        simp only [createOrderWithRetry, RetryResult.calls, List.length_cons]
        omega
      | .parseFailure =>
        simp only [createOrderWithRetry, List.length_cons]
        have := ih (some .parseFailure) (n + 1)
        omega
      | .httpError st msg =>
        simp only [createOrderWithRetry, List.length_cons]
        by_cases hr : retryableNotFound st msg
        · rw [if_pos hr]
          have := ih (some (.httpError st msg)) (n + 1)
          omega
        · rw [if_neg hr]
          simp only [RetryResult.calls]
          omega
  · intro pre
    induction pre with
    | nil =>
      intro o rest last n _
      simp [createOrderWithRetry]
    | cons r pre' ih =>
      intro o rest last n hall
      have hr : r.retryable = true := hall r (List.mem_cons_self r pre')
      have htail : ∀ x ∈ pre', x.retryable = true :=
        fun x hx => hall x (List.mem_cons_of_mem r hx)
      match r with
      | .success o' => simp [AttemptResult.retryable] at hr
      | .parseFailure =>
        simp only [List.cons_append, createOrderWithRetry, List.append_eq]
        rw [ih o rest (some .parseFailure) (n + 1) htail]
        simp only [List.length_cons]
        congr 1
        omega
      | .httpError st msg =>
        have hnf : retryableNotFound st msg = true := by
          simpa [AttemptResult.retryable] using hr
        simp only [List.cons_append, createOrderWithRetry, List.append_eq, if_pos hnf]
        rw [ih o rest (some (.httpError st msg)) (n + 1) htail]
        simp only [List.length_cons]
        congr 1
        omega

/-- C4 witness (the spec's Scenario C): two 400 "Product not found"
rejections followed by an accepted variant make exactly 3 provider calls
and return that order. -/
theorem orderGateway_call_bound_witness :
    (getProductLocatorVariations "B000X0TEST".data
      "https://www.amazon.com/dp/B000X0TEST".data).length = 5 ∧
    createOrderWithRetry
      [ .httpError (some 400) (some "Product not found".data),
        .httpError (some 400) (some "Product not found for locator".data),
        .success signOrderSample ] none 0 = .ok signOrderSample 3 ∧
    (createOrderWithRetry
      [ .httpError (some 400) (some "Product not found".data),
        .httpError (some 400) (some "Product not found for locator".data),
        .success signOrderSample ] none 0).calls ≤ 3 := by
  refine ⟨orderGateway_call_bound.1 _ _, ?_, ?_⟩
  · exact orderGateway_call_bound.2.2
      [ .httpError (some 400) (some "Product not found".data),
        .httpError (some 400) (some "Product not found for locator".data) ]
      signOrderSample [] none 0 (by decide)
  · exact le_trans
      (orderGateway_call_bound.2.1
        [ .httpError (some 400) (some "Product not found".data),
          .httpError (some 400) (some "Product not found for locator".data),
          .success signOrderSample ] none 0)
      (by decide)

/-! ## C3 — which failures are retried across locator variants -/

/-- C3 counterexample: an attempt whose response fails schema validation
(a non-axios `ZodError`) does not abort the loop: the next variant is
still tried and can succeed, while the claim requires an immediate abort
with the parse error. -/
theorem retry_policy_counterexample :
    createOrderWithRetry [.parseFailure, .success signOrderSample] none 0 =
      .ok signOrderSample 2 ∧
    createOrderWithRetry [.parseFailure, .success signOrderSample] none 0 ≠
      .aborted .parseFailure 1 := by
  exact ⟨rfl, by decide⟩

/-- C3 amended: the loop moves on to the next variant when the provider
returned HTTP 400 with a "Product not found"-class message and also when
the failure is not an HTTP-layer error (schema-validation failure); any
other HTTP-layer error aborts the whole operation immediately with that
error; when every variant fails, the error of the last attempt is
surfaced. -/
theorem retry_policy_amended :
    (∀ (st : Option Nat) (msg : Option (List Char)) (rest : List AttemptResult)
        (last : Option AttemptError) (n : Nat),
      retryableNotFound st msg = false →
      createOrderWithRetry (.httpError st msg :: rest) last n =
        .aborted (.httpError st msg) (n + 1)) ∧
    (∀ (st : Option Nat) (msg : Option (List Char)) (rest : List AttemptResult)
        (last : Option AttemptError) (n : Nat),
      retryableNotFound st msg = true →
      createOrderWithRetry (.httpError st msg :: rest) last n =
        createOrderWithRetry rest (some (.httpError st msg)) (n + 1)) ∧
    (∀ (rest : List AttemptResult) (last : Option AttemptError) (n : Nat),
      createOrderWithRetry (.parseFailure :: rest) last n =
        createOrderWithRetry rest (some .parseFailure) (n + 1)) ∧
    (∀ (results : List AttemptResult) (last : Option AttemptError) (n : Nat),
      (∀ r ∈ results, r.retryable = true) →
      createOrderWithRetry results last n =
        .exhausted (results.getLast?.elim last AttemptResult.toError)
          (n + results.length)) := by
  refine ⟨?_, ?_, ?_, ?_⟩
  · intro st msg rest last n hnf
    simp [createOrderWithRetry, hnf]
  · intro st msg rest last n hnf
    simp [createOrderWithRetry, hnf]
  · intro rest last n
    simp [createOrderWithRetry]
  · intro results
    induction results with
    | nil => intro last n _; simp [createOrderWithRetry, Option.elim]
    | cons r rest ih =>
      intro last n hall
      have hr : r.retryable = true := hall r (List.mem_cons_self r rest)
      have htail : ∀ x ∈ rest, x.retryable = true :=
        fun x hx => hall x (List.mem_cons_of_mem r hx)
      have hlast : ∀ (e : Option AttemptError), r.toError = e →
          ((r :: rest).getLast?.elim last AttemptResult.toError) =
            (rest.getLast?.elim e AttemptResult.toError) := by
        intro e he
        cases hrest : rest.getLast? with
        | none =>
          have : rest = [] := by
            cases rest with
            | nil => rfl
            | cons a t => simp [List.getLast?_cons_cons] at hrest
          subst this
          simp [List.getLast?_singleton, Option.elim, he]
        | some x =>
          have : (r :: rest).getLast? = some x := by
            cases rest with
            | nil => simp at hrest
            | cons a t => rw [List.getLast?_cons_cons]; exact hrest
          simp [this, hrest, Option.elim]
      match r with
      | .success o' => simp [AttemptResult.retryable] at hr
      | .parseFailure =>
        simp only [createOrderWithRetry]
        rw [ih (some .parseFailure) (n + 1) htail,
          hlast (some .parseFailure) rfl]
        simp only [List.length_cons]
        congr 1
        omega
      | .httpError st msg =>
        have hnf : retryableNotFound st msg = true := by
          simpa [AttemptResult.retryable] using hr
        simp only [createOrderWithRetry, if_pos hnf]
        rw [ih (some (.httpError st msg)) (n + 1) htail,
          hlast (some (.httpError st msg)) rfl]
        simp only [List.length_cons]
        congr 1
        omega

/-- C3 amended witness: a 404 aborts immediately; a 400 "Product not
found" continues; exhausting two retryable failures surfaces the last
error with one call per variant. -/
theorem retry_policy_amended_witness :
    createOrderWithRetry [.httpError (some 404) (some "Not Found".data),
      .success signOrderSample] none 0 =
      .aborted (.httpError (some 404) (some "Not Found".data)) 1 ∧
    createOrderWithRetry [.httpError (some 400) (some "Product not found".data)] none 0 =
      createOrderWithRetry [] (some (.httpError (some 400)
        (some "Product not found".data))) 1 ∧
    createOrderWithRetry [.parseFailure,
      .httpError (some 400) (some "Product not found".data)] none 0 =
      .exhausted (some (.httpError (some 400) (some "Product not found".data))) 2 := by
  refine ⟨?_, ?_, ?_⟩
  · exact retry_policy_amended.1 (some 404) (some "Not Found".data)
      [.success signOrderSample] none 0 (by decide)
  · exact retry_policy_amended.2.1 (some 400) (some "Product not found".data) [] none 0
      (by decide)
  · exact retry_policy_amended.2.2.2
      [.parseFailure, .httpError (some 400) (some "Product not found".data)] none 0
      (by decide)

/-! ## C6 — insufficient funds is classified first and recovered by top-up -/

/-- C6: a provider order response with
`payment.status == "crypto-payer-insufficient-funds"` always ends in the
top-up recovery action, regardless of every other field of the response:
the classification throws the insufficient-funds error before any other
check, and the message dispatch of `createHeadlessOrder` maps it to the
top-up keyboard rather than a generic failure. -/
theorem insufficient_funds_spec :
    ∀ o : Order, o.payment.status = "crypto-payer-insufficient-funds".data →
      createHeadlessOrder o = .offerTopUp := by
  intro o h
  have hcls : classifyOrderResponse o = .error .insufficientFunds := by
    simp [classifyOrderResponse, h]
  simp only [createHeadlessOrder, createWalletAmazonOrderResult, hcls]
  rw [if_pos (by decide)]

/-- C6 witness: an insufficient-funds response that also carries a
serialized transaction and an address-requiring quote status still ends in
the top-up recovery. -/
theorem insufficient_funds_witness :
    createHeadlessOrder insufficientOrderSample = .offerTopUp :=
  insufficient_funds_spec insufficientOrderSample rfl

/-! ## C2 — absence of a serialized transaction -/

/-- C2 counterexample: a response with no serialized transaction (and
neither insufficient funds nor a required address) makes
`createWalletAmazonOrder` throw "No serialized transaction found for
order…" instead of signalling auto-completion, so `createHeadlessOrder`
reports a failure and never reaches its auto-completed branch. -/
theorem auto_completed_counterexample :
    autoOrderSample.serializedTx = none ∧
    autoOrderSample.payment.status ≠ "crypto-payer-insufficient-funds".data ∧
    autoOrderSample.quote.status ≠ "requires-physical-address".data ∧
    createWalletAmazonOrderResult autoOrderSample =
      .error (wrapUnexpected CreateOrderError.noSerializedTransaction.message) ∧
    createHeadlessOrder autoOrderSample ≠ .announceAutoCompleted := by
  exact ⟨rfl, by decide, by decide, rfl, by decide⟩

/-- C2 amended: for every response with no serialized transaction (and
neither insufficient funds nor a required address), `createOrder` raises
the "No serialized transaction found" error rather than returning an
auto-completed signal, and the checkout handler reports the generic
order-creation failure; the auto-completed branch is unreachable on this
path. -/
theorem auto_completed_amended :
    ∀ o : Order, o.payment.status ≠ "crypto-payer-insufficient-funds".data →
      o.quote.status ≠ "requires-physical-address".data →
      o.serializedTx = none →
      createWalletAmazonOrderResult o =
        .error (wrapUnexpected CreateOrderError.noSerializedTransaction.message) ∧
      createHeadlessOrder o =
        .failGeneric (wrapUnexpected CreateOrderError.noSerializedTransaction.message) := by
  intro o h1 h2 h3
  have hcls : classifyOrderResponse o = .error .noSerializedTransaction := by
    simp [classifyOrderResponse, h1, h2, h3]
  constructor
  · simp [createWalletAmazonOrderResult, hcls]
  · simp only [createHeadlessOrder, createWalletAmazonOrderResult, hcls]
    rw [if_neg (by decide), if_neg (by decide)]

/-- C2 amended witness: the sample auto-completing response ends in the
generic order-creation failure carrying the missing-transaction message. -/
theorem auto_completed_amended_witness :
    createWalletAmazonOrderResult autoOrderSample =
      .error (wrapUnexpected CreateOrderError.noSerializedTransaction.message) ∧
    createHeadlessOrder autoOrderSample =
      .failGeneric (wrapUnexpected CreateOrderError.noSerializedTransaction.message) :=
  auto_completed_amended autoOrderSample (by decide) (by decide) rfl

/-! ## C1 — delegation is never consulted before submission -/

/-- C1 counterexample: for an order whose response carries a serialized
transaction, the checkout handler submits the transaction directly even
though the delegation check answers `false`, where the spec's coordinator
would return a manual-approval descriptor. -/
theorem signing_delegation_counterexample :
    signOrderSample.serializedTx = some "0xTX".data ∧
    createHeadlessOrder signOrderSample =
      .submitTransaction "0xTX".data "base-sepolia".data ∧
    specCompleteSignature false "0xWALLET".data "0xTX".data "base-sepolia".data =
      .manualApprovalDescriptor "0xWALLET".data ∧
    (createHeadlessOrder signOrderSample).asSignDecision ≠
      some (specCompleteSignature false "0xWALLET".data "0xTX".data "base-sepolia".data) := by
  exact ⟨rfl, rfl, rfl, by decide⟩

/-- C1 amended: whenever the order response carries a serialized
transaction, the checkout handler submits it directly to the wallet
provider's transaction-submission endpoint without consulting the
delegation checker — its decision equals the spec coordinator's delegated
branch for every payer wallet — and no order response ever produces a
manual-approval descriptor. -/
theorem signing_direct_submission_amended :
    (∀ (o : Order) (tx : List Char),
      o.payment.status ≠ "crypto-payer-insufficient-funds".data →
      o.quote.status ≠ "requires-physical-address".data →
      o.serializedTx = some tx → tx.isEmpty = false →
      createHeadlessOrder o = .submitTransaction tx o.paymentChain ∧
      ∀ w : List Char,
        (createHeadlessOrder o).asSignDecision =
          some (specCompleteSignature true w tx o.paymentChain)) ∧
    (∀ (o : Order) (l : List Char), createHeadlessOrder o ≠ .manualApproval l) := by
  constructor
  · intro o tx h1 h2 h3 htx
    have hcls : classifyOrderResponse o = .ok (o, tx) := by
      simp [classifyOrderResponse, h1, h2, h3, htx]
    have hres : createWalletAmazonOrderResult o = .ok (o, tx) := by
      simp [createWalletAmazonOrderResult, hcls]
    constructor
    · simp [createHeadlessOrder, hres, h1, h2, h3, htx]
    · intro w
      simp [createHeadlessOrder, hres, h1, h2, h3, htx, specCompleteSignature,
        BotAction.asSignDecision]
  · intro o l
    cases h : createWalletAmazonOrderResult o with
    | error msg =>
      simp only [createHeadlessOrder, h]
      split_ifs <;> simp
    | ok s =>
      obtain ⟨ord, tx⟩ := s
      simp only [createHeadlessOrder, h]
      split_ifs <;> try simp
      cases ord.serializedTx with
      | none => simp
      | some tx' => by_cases htx : tx' = [] <;> simp [htx]

/-- C1 amended witness: the sample signing order is submitted directly,
matching the spec coordinator only with the delegation input forced to
`true`. -/
theorem signing_direct_submission_amended_witness :
    createHeadlessOrder signOrderSample =
      .submitTransaction "0xTX".data signOrderSample.paymentChain ∧
    (createHeadlessOrder signOrderSample).asSignDecision =
      some (specCompleteSignature true "0xWALLET".data "0xTX".data
        signOrderSample.paymentChain) := by
  have h := signing_direct_submission_amended.1 signOrderSample "0xTX".data
    (by decide) (by decide) rfl (by decide)
  exact ⟨h.1, h.2 "0xWALLET".data⟩

/-! ## Session state machine lemmas -/

/-- In any step other than the two collecting steps, the checkout message
handler consumes nothing and changes nothing. -/
theorem frame_other_steps (s : UserSession) (t : List Char)
    (h : s.step = .productSelected ∨ s.step = .creatingOrder ∨ s.step = .completed) :
    handleCheckoutMessage t s = (s, false) := by
  simp only [handleCheckoutMessage]
  by_cases he : (jsTrim t).isEmpty
  · simp [he]
  · cases hp : s.selectedProduct with
    | none => simp [he, hp]
    | some p => rcases h with h | h | h <;> simp [he, hp, h]

/-- One step from `collecting_email`: either the session is unchanged, or
the trimmed input passed the email regex and the step advanced to
`collecting_address`. -/
theorem step_from_collectingEmail (s : UserSession) (t : List Char)
    (h : s.step = .collectingEmail) :
    (handleCheckoutMessage t s).1 = s ∨
      (emailRegexAccepts (jsTrim t) = true ∧
       (handleCheckoutMessage t s).1.step = .collectingAddress) := by
  simp only [handleCheckoutMessage]
  by_cases he : (jsTrim t).isEmpty
  · left; simp [he]
  · cases hp : s.selectedProduct with
    | none => left; simp [he, hp]
    | some p =>
      by_cases hr : emailRegexAccepts (jsTrim t)
      · right
        constructor
        · exact hr
        · simp [he, hp, h, handleEmailInput, hr]
      · left
        simp [he, hp, h, handleEmailInput, hr]

/-- One step from `collecting_address`: either the session is unchanged, or
the trimmed input split into accepted address parts and the step advanced
to `creating_order`. -/
theorem step_from_collectingAddress (s : UserSession) (t : List Char)
    (h : s.step = .collectingAddress) :
    (handleCheckoutMessage t s).1 = s ∨
      (addressPartsAccepted ((splitOnChar '|' (jsTrim t)).map jsTrim) = true ∧
       (handleCheckoutMessage t s).1.step = .creatingOrder) := by
  simp only [handleCheckoutMessage]
  by_cases he : (jsTrim t).isEmpty
  · left; simp [he]
  · cases hp : s.selectedProduct with
    | none => left; simp [he, hp]
    | some p =>
      by_cases hr : addressPartsAccepted ((splitOnChar '|' (jsTrim t)).map jsTrim)
      · right
        constructor
        · exact hr
        · simp [he, hp, h, handleAddressInput, hr]
      · left
        simp [he, hp, h, handleAddressInput, hr]

/-- `runInputs` unfolds one input at a time. -/
theorem runInputs_cons (t : List Char) (ts : List (List Char)) (s : UserSession) :
    runInputs (t :: ts) s = runInputs ts ((handleCheckoutMessage t s).1) := rfl

/-- Reaching `creating_order` from `collecting_address` requires an input
whose address parts were accepted. -/
theorem reach_creatingOrder_from_address :
    ∀ (ts : List (List Char)) (s : UserSession), s.step = .collectingAddress →
      (runInputs ts s).step = .creatingOrder →
      ∃ t ∈ ts, addressPartsAccepted ((splitOnChar '|' (jsTrim t)).map jsTrim) = true := by
  intro ts
  induction ts with
  | nil =>
    intro s h hrun
    rw [show runInputs [] s = s from rfl, h] at hrun
    exact absurd hrun (by decide)
  | cons t ts ih =>
    intro s h hrun
    rw [runInputs_cons] at hrun
    rcases step_from_collectingAddress s t h with heq | ⟨hacc, _⟩
    · have hstep : ((handleCheckoutMessage t s).1).step = .collectingAddress := by
        rw [heq]; exact h
      obtain ⟨t', ht', hacc'⟩ := ih ((handleCheckoutMessage t s).1) hstep hrun
      exact ⟨t', List.mem_cons_of_mem _ ht', hacc'⟩
    · exact ⟨t, List.mem_cons_self _ _, hacc⟩

/-! ## C5 — reaching `creating_order` and the validated email/address -/

/-- A session seeded by `startWalletCheckoutFlow` from a wallet record that
already carries an email: the email is copied without regex validation and
the step starts directly at `collecting_address`. -/
def addressSeededSession : UserSession :=
  { userId := 7,
    selectedProduct := some { title := "Wireless Headphones".data,
                              price := "59.99".data,
                              amazonUrl := "https://www.amazon.com/dp/B000X0TEST".data },
    email := some "wallet-user@example.com".data, physicalAddress := none,
    step := .collectingAddress, productIndex := some 0 }

/-- C5 counterexample: a session seeded with a wallet-provided email starts
in `collecting_address` and reaches `creating_order` after a single valid
address input, although no input of the sequence was accepted by the email
validation regex — the claim's "only after an email matching the validation
regex has been accepted" fails for this session. -/
theorem session_progress_counterexample :
    addressSeededSession.step = .collectingAddress ∧
    (runInputs ["John Doe|123 Main St|Austin|TX|73301|US".data]
      addressSeededSession).step = .creatingOrder ∧
    ¬∃ t ∈ ["John Doe|123 Main St|Austin|TX|73301|US".data],
        emailRegexAccepts (jsTrim t) = true := by
  refine ⟨rfl, by decide, by decide⟩

/-- C5 amended: (i) a user text input changes a session's step only when
the step was `collecting_email` and the trimmed input matched the email
regex (advancing to `collecting_address`), or the step was
`collecting_address` and the trimmed input split into six non-empty
pipe-delimited fields with country normalizing to `US` (advancing to
`creating_order`) — so input failing the checks leaves the step unchanged;
(ii) reaching `creating_order` always requires an input whose address
parts were accepted; (iii) a session starting in `collecting_email`
additionally requires an input accepted by the email regex — while a
session seeded with a wallet-provided email starts directly in
`collecting_address` and needs no regex-accepted email input. -/
theorem session_progress_amended :
    (∀ (s : UserSession) (t : List Char),
      (handleCheckoutMessage t s).1.step ≠ s.step →
        (s.step = .collectingEmail ∧ emailRegexAccepts (jsTrim t) = true ∧
          (handleCheckoutMessage t s).1.step = .collectingAddress) ∨
        (s.step = .collectingAddress ∧
          addressPartsAccepted ((splitOnChar '|' (jsTrim t)).map jsTrim) = true ∧
          (handleCheckoutMessage t s).1.step = .creatingOrder)) ∧
    (∀ (s : UserSession) (ts : List (List Char)),
      s.step = .collectingAddress → (runInputs ts s).step = .creatingOrder →
        ∃ t ∈ ts, addressPartsAccepted ((splitOnChar '|' (jsTrim t)).map jsTrim) = true) ∧
    (∀ (s : UserSession) (ts : List (List Char)),
      s.step = .collectingEmail → (runInputs ts s).step = .creatingOrder →
        (∃ t ∈ ts, emailRegexAccepts (jsTrim t) = true) ∧
        (∃ t ∈ ts, addressPartsAccepted ((splitOnChar '|' (jsTrim t)).map jsTrim) = true)) := by
  refine ⟨?_, fun s ts => reach_creatingOrder_from_address ts s, ?_⟩
  · intro s t hne
    match hstep : s.step with
    | .productSelected =>
      rw [frame_other_steps s t (Or.inl hstep)] at hne
      exact absurd rfl hne
    | .creatingOrder =>
      rw [frame_other_steps s t (Or.inr (Or.inl hstep))] at hne
      exact absurd rfl hne
    | .completed =>
      rw [frame_other_steps s t (Or.inr (Or.inr hstep))] at hne
      exact absurd rfl hne
    | .collectingEmail =>
      rcases step_from_collectingEmail s t hstep with heq | ⟨hacc, hadv⟩
      · rw [heq] at hne
        exact absurd rfl hne
      · exact Or.inl ⟨rfl, hacc, hadv⟩
    | .collectingAddress =>
      rcases step_from_collectingAddress s t hstep with heq | ⟨hacc, hadv⟩
      · rw [heq] at hne
        exact absurd rfl hne
      · exact Or.inr ⟨rfl, hacc, hadv⟩
  · intro s ts
    induction ts generalizing s with
    | nil =>
      intro h hrun
      rw [show runInputs [] s = s from rfl, h] at hrun
      exact absurd hrun (by decide)
    | cons t ts ih =>
      intro h hrun
      rw [runInputs_cons] at hrun
      rcases step_from_collectingEmail s t h with heq | ⟨hacc, hadv⟩
      · have hstep : ((handleCheckoutMessage t s).1).step = .collectingEmail := by
          rw [heq]; exact h
        obtain ⟨⟨te, hte, he⟩, ⟨ta, hta, ha⟩⟩ := ih ((handleCheckoutMessage t s).1) hstep hrun
        exact ⟨⟨te, List.mem_cons_of_mem _ hte, he⟩, ⟨ta, List.mem_cons_of_mem _ hta, ha⟩⟩
      · obtain ⟨ta, hta, ha⟩ :=
          reach_creatingOrder_from_address ts ((handleCheckoutMessage t s).1) hadv hrun
        exact ⟨⟨t, List.mem_cons_self _ _, hacc⟩, ⟨ta, List.mem_cons_of_mem _ hta, ha⟩⟩

/-- C5 amended witness (the spec's Scenario B shape): from
`collecting_email`, a valid email then a valid US address reach
`creating_order`, and both inputs pass their checks. -/
theorem session_progress_amended_witness :
    (runInputs ["john@example.com".data,
      "John Doe|123 Main St|Austin|TX|73301|US".data] sampleSession).step =
        .creatingOrder ∧
    ((∃ t ∈ ["john@example.com".data,
        "John Doe|123 Main St|Austin|TX|73301|US".data],
        emailRegexAccepts (jsTrim t) = true) ∧
     (∃ t ∈ ["john@example.com".data,
        "John Doe|123 Main St|Austin|TX|73301|US".data],
        addressPartsAccepted ((splitOnChar '|' (jsTrim t)).map jsTrim) = true)) := by
  refine ⟨by decide, ?_⟩
  exact session_progress_amended.2.2 sampleSession
    ["john@example.com".data, "John Doe|123 Main St|Austin|TX|73301|US".data]
    rfl (by decide)

/-! ## C10 — non-collecting steps ignore user text -/

/-- C10: a user text message arriving while the session step is
`product_selected`, `creating_order` or `completed` is not consumed
(`false`) and the session is neither advanced, modified nor deleted. -/
theorem checkout_message_frame_spec :
    ∀ (s : UserSession) (t : List Char),
      (s.step = .productSelected ∨ s.step = .creatingOrder ∨ s.step = .completed) →
      handleCheckoutMessage t s = (s, false) := by
  intro s t h
  exact frame_other_steps s t h

/-- C10 witness: a text arriving in `creating_order` is ignored. -/
theorem checkout_message_frame_witness :
    handleCheckoutMessage "hello there".data
        { sampleSession with step := .creatingOrder } =
      ({ sampleSession with step := .creatingOrder }, false) :=
  checkout_message_frame_spec { sampleSession with step := .creatingOrder }
    "hello there".data (Or.inr (Or.inl rfl))

end Crossmint
